import Mathlib

/-!
Verification development for the BlinkAi dashboard core: the
authentication gate (src/middleware/auth.js) and the statistics
aggregator (the /api/stats handler in src/server.js), shallowly
embedded as pure Lean functions over explicit state.
-/

/-! ## Authentication gate (src/middleware/auth.js) -/

/-- Abstract interface of the argon2 password-hashing primitive:
`hash` produces a stored digest, `verify digest raw` either answers
whether `raw` matches `digest` or raises an error message (the JS
promise rejection), modelled with `Except`. -/
structure Argon2 where
  hash : String → String
  verify : String → String → Except String Bool

/-- An entry of the in-memory `adminUsers` array: the email, the
argon2 digest stored under the `password` field, and the role. -/
structure AdminUser where
  email : String
  password : String
  role : String
deriving Repr, DecidableEq

/-- The principal object returned by a successful `authenticate` call:
`{ email: user.email, role: user.role }`. -/
structure Principal where
  email : String
  role : String
deriving Repr, DecidableEq

/-- JS falsiness of an optional environment string: `undefined` and the
empty string are falsy (`!adminEmail || !adminPassword`). -/
def isFalsyStr : Option String → Bool
  | none => true
  | some s => s == ""

/-- `initializeAdminUser` from src/middleware/auth.js: reads the two
environment values, throws `Admin credentials not configured` when
either is falsy, otherwise hashes the password and PUSHES the new
identity onto the `adminUsers` array (the prior contents are kept).
State is passed explicitly: `users` is the array before the call and
the `.ok` payload is the array after it. -/
def initializeAdminUser (ar : Argon2) (adminEmail adminPassword : Option String)
    (users : List AdminUser) : Except String (List AdminUser) :=
  if isFalsyStr adminEmail || isFalsyStr adminPassword then
    .error "Admin credentials not configured"
  else
    .ok (users ++ [{ email := adminEmail.getD ""
                   , password := ar.hash (adminPassword.getD "")
                   , role := "admin" }])

/-- `authenticate` from src/middleware/auth.js: `adminUsers.find` on the
email, `null` when absent, then `argon2.verify(user.password, password)`
inside a try/catch whose catch arm logs and falls through to `null` —
so a verification error is absorbed into "no match". -/
def authenticate (ar : Argon2) (users : List AdminUser)
    (email password : String) : Option Principal :=
  match users.find? (fun u => u.email == email) with
  | none => none
  | some user =>
    match ar.verify user.password password with
    | .ok true => some { email := user.email, role := user.role }
    | .ok false => none
    | .error _ => none

/-! ## Session check and guards (src/middleware/auth.js) -/

/-- A JavaScript value, as far as the session check observes it:
primitives plus string-keyed objects. -/
inductive JsVal where
  | undefined : JsVal
  | null : JsVal
  | bool : Bool → JsVal
  | num : Int → JsVal
  | str : String → JsVal
  | obj : List (String × JsVal) → JsVal

/-- JS truthiness: `undefined`, `null`, `false`, `0` and `""` are falsy;
every object (even empty) is truthy. -/
def truthy : JsVal → Bool
  | .undefined => false
  | .null => false
  | .bool b => b
  | .num n => n != 0
  | .str s => s != ""
  | .obj _ => true

/-- Property access `v.k` for a truthy receiver: field lookup on an
object, `undefined` on a (truthy) primitive. -/
def getField : JsVal → String → JsVal
  | .obj fields, k =>
    match fields.find? (fun p => p.1 == k) with
    | some p => p.2
    | none => .undefined
  | _, _ => .undefined

/-- JS short-circuit `a || b`: returns `a` when truthy, else `b`. -/
def jsOr (a b : JsVal) : JsVal := if truthy a then a else b

/-- JS short-circuit `a && b`: returns `a` when falsy, else `b`. -/
def jsAnd (a b : JsVal) : JsVal := if truthy a then b else a

/-- `checkAuth` from src/middleware/auth.js, with the request
represented by its `req.session` value (an absent session is
`undefined`): `if (!req.session) return false;` then
`!!(session.adminUser || session.adminjs || (session.passport &&
session.passport.user))`. Total by construction, so it cannot throw. -/
def checkAuth (session : JsVal) : Bool :=
  if truthy session = false then false
  else
    truthy (jsOr (getField session "adminUser")
      (jsOr (getField session "adminjs")
        (jsAnd (getField session "passport")
          (getField (getField session "passport") "user"))))

/-- What a guard does with a request: pass it to the protected handler
(`next()`), answer `401` with a JSON error body, or redirect. -/
inductive GuardResult where
  | callNext : GuardResult
  | status401Json : String → GuardResult
  | redirect : String → GuardResult
deriving Repr, DecidableEq

/-- `requireAuth` (API guard): `next()` when `checkAuth` passes, else
`res.status(401).json({ error: 'Unauthorized' })`. -/
def requireAuth (session : JsVal) : GuardResult :=
  if checkAuth session then .callNext else .status401Json "Unauthorized"

/-- `requireAuthWeb` (page guard): `next()` when `checkAuth` passes,
else `res.redirect('/admin/login')`. -/
def requireAuthWeb (session : JsVal) : GuardResult :=
  if checkAuth session then .callNext else .redirect "/admin/login"

/-- Spec-side reading of "the session carries a recognized
authentication marker": a truthy `adminUser`, a truthy `adminjs`, or a
truthy `passport` object with a truthy `user` inside it. -/
def recognizedMarker (session : JsVal) : Prop :=
  truthy (getField session "adminUser") = true ∨
  truthy (getField session "adminjs") = true ∨
  (truthy (getField session "passport") = true ∧
   truthy (getField (getField session "passport") "user") = true)

instance (s : JsVal) : Decidable (recognizedMarker s) := by
  unfold recognizedMarker; infer_instance

/-! ## Statistics aggregator (the /api/stats handler in src/server.js) -/

/-- A row of the `search_queries` table as the handler reads it.
`created_at` is a timestamp in seconds; the optional text columns use
`none` for SQL NULL. -/
structure SearchRecord where
  id : Nat
  keyword : Option String
  search_type : Option String
  platform_name : Option String
  created_at : Nat
deriving Repr, DecidableEq

/-- SQL `DATE(created_at)`: the timestamp truncated to day
granularity. -/
def dayOf (t : Nat) : Nat := t / 86400

/-- Worker for `dedupFirst`: keeps the elements not yet seen, in
order, threading the set of already-emitted values. -/
def dedupGo {α : Type} [DecidableEq α] (seen : List α) : List α → List α
  | [] => []
  | x :: xs =>
    if x ∈ seen then dedupGo seen xs else x :: dedupGo (x :: seen) xs

/-- Distinct values of a list in first-occurrence order, as a SQL
`GROUP BY` produces one row per distinct value. -/
def dedupFirst {α : Type} [DecidableEq α] (l : List α) : List α :=
  dedupGo [] l

/-- One `GROUP BY f` result set over `rows`: a row per distinct value
of `f`, paired with `COUNT(id)` over its group. -/
def groupRows (f : SearchRecord → Option String) (rows : List SearchRecord) :
    List (Option String × Nat) :=
  (dedupFirst (rows.map f)).map
    (fun v => (v, (rows.filter (fun r => f r == v)).length))

/-- The JS label substitution `row.x || 'Unknown'`: SQL NULL and the
empty string (the only falsy strings) become `"Unknown"`. -/
def labelOf : Option String → String
  | none => "Unknown"
  | some s => if s == "" then "Unknown" else s

/-- JS object assignment `m[k] = c`: replace the value in place when
the key exists, otherwise append the new key. -/
def jsSet (m : List (String × Nat)) (k : String) (c : Nat) :
    List (String × Nat) :=
  if m.any (fun p => p.1 == k) then
    m.map (fun p => if p.1 == k then (k, c) else p)
  else m ++ [(k, c)]

/-- The `forEach` loop converting grouped rows into a breakdown
object: each row's value is labelled and written into the object. -/
def toBreakdown (rows : List (Option String × Nat)) : List (String × Nat) :=
  rows.foldl (fun acc row => jsSet acc (labelOf row.1) row.2) []

/-- `searchTypeBreakdown`: group ALL records by `search_type`, then
label. -/
def searchTypeBreakdown (rs : List SearchRecord) : List (String × Nat) :=
  toBreakdown (groupRows (fun r => r.search_type) rs)

/-- `platformBreakdown`: records are first filtered by
`platform_name IS NOT NULL` (Sequelize `[Op.ne]: null`), then grouped
by `platform_name` and labelled. -/
def platformBreakdown (rs : List SearchRecord) : List (String × Nat) :=
  toBreakdown (groupRows (fun r => r.platform_name)
    (rs.filter (fun r => r.platform_name.isSome)))

/-- Insertion step of an ascending sort on `Nat` (SQL
`ORDER BY ... ASC`). -/
def insertAsc (x : Nat) : List Nat → List Nat
  | [] => [x]
  | y :: ys => if x ≤ y then x :: y :: ys else y :: insertAsc x ys

/-- Ascending insertion sort on `Nat`. -/
def sortAsc : List Nat → List Nat
  | [] => []
  | x :: xs => insertAsc x (sortAsc xs)

/-- `COUNT(id)` of the records created on day `d`. -/
def countOnDay (rs : List SearchRecord) (d : Nat) : Nat :=
  (rs.filter (fun r => dayOf r.created_at == d)).length

/-- `timelineData`: group by `DATE(created_at)` ordered ascending, one
entry per day that has at least one record, over the whole history (no
window is applied). -/
def timelineData (rs : List SearchRecord) : List (Nat × Nat) :=
  (sortAsc (dedupFirst (rs.map (fun r => dayOf r.created_at)))).map
    (fun d => (d, countOnDay rs d))

/-- SQL `MIN(created_at)`: `NULL` on an empty table. -/
def minCreated (rs : List SearchRecord) : Option Nat :=
  rs.foldl (fun acc r =>
    match acc with
    | none => some r.created_at
    | some m => some (min m r.created_at)) none

/-- SQL `MAX(created_at)`: `NULL` on an empty table. -/
def maxCreated (rs : List SearchRecord) : Option Nat :=
  rs.foldl (fun acc r =>
    match acc with
    | none => some r.created_at
    | some m => some (max m r.created_at)) none

/-- Insertion step of a descending sort on `created_at` (SQL
`ORDER BY created_at DESC`; ties keep an arbitrary relative order). -/
def insertDesc (x : SearchRecord) : List SearchRecord → List SearchRecord
  | [] => [x]
  | y :: ys =>
    if y.created_at ≤ x.created_at then x :: y :: ys
    else y :: insertDesc x ys

/-- Descending insertion sort on `created_at`. -/
def sortDesc : List SearchRecord → List SearchRecord
  | [] => []
  | x :: xs => insertDesc x (sortDesc xs)

/-- The projection the handler applies to each recent record:
`{ id, keyword, search_type, platform_name, created_at }` and nothing
else. -/
structure RecentQuery where
  id : Nat
  keyword : Option String
  search_type : Option String
  platform_name : Option String
  created_at : Nat
deriving Repr, DecidableEq

/-- The `recentRecords.map(r => ({...}))` projection. The recent
`findAll` passes no `attributes` option, so Sequelize selects only the
attributes declared on the model — and models/QueryResult.js declares
`id`, `keyword`, `search_type` and `created_at` but no `platform_name`
— so the instance's `r.platform_name` is `undefined` (`none` here)
whatever the stored row holds, and the projected object always carries
an absent platform. -/
def projectRecord (r : SearchRecord) : RecentQuery :=
  { id := r.id
  , keyword := r.keyword
  , search_type := r.search_type
  , platform_name := none
  , created_at := r.created_at }

/-- `recentQueries`: order by `created_at DESC`, `LIMIT 10`, then the
projection above. Because the fetch is model-mediated (unlike the
breakdown queries, which name the `platform_name` column explicitly),
the elements never expose the stored platform. -/
def recentQueries (rs : List SearchRecord) : List RecentQuery :=
  ((sortDesc rs).take 10).map projectRecord

/-- The `data` object of the /api/stats JSON response. -/
structure Snapshot where
  total : Nat
  searchTypeBreakdown : List (String × Nat)
  timelineData : List (Nat × Nat)
  platformBreakdown : List (String × Nat)
  recentQueries : List RecentQuery
  dateRange : Option Nat × Option Nat
deriving Repr, DecidableEq

/-- The whole aggregation performed by the /api/stats handler, as one
pure function of the record store contents. -/
def computeSnapshot (rs : List SearchRecord) : Snapshot :=
  { total := rs.length
  , searchTypeBreakdown := searchTypeBreakdown rs
  , timelineData := timelineData rs
  , platformBreakdown := platformBreakdown rs
  , recentQueries := recentQueries rs
  , dateRange := (minCreated rs, maxCreated rs) }

/-- Serialize an optional string field as JSON would. -/
def serializeOptStr : Option String → String
  | none => "null"
  | some s => s

/-- Serialize a string-keyed breakdown object. -/
def serializePairs (ps : List (String × Nat)) : String :=
  ps.foldl (fun a p => a ++ p.1 ++ ":" ++ toString p.2 ++ ";") ""

/-- Serialize the timeline object. -/
def serializeDays (ps : List (Nat × Nat)) : String :=
  ps.foldl (fun a p => a ++ toString p.1 ++ ":" ++ toString p.2 ++ ";") ""

/-- Serialize one projected recent record. -/
def serializeRecent (q : RecentQuery) : String :=
  toString q.id ++ "," ++ serializeOptStr q.keyword ++ "," ++
  serializeOptStr q.search_type ++ "," ++
  serializeOptStr q.platform_name ++ "," ++ toString q.created_at

/-- Serialize an optional timestamp. -/
def serializeOptNat : Option Nat → String
  | none => "null"
  | some n => toString n

/-- Byte-level serialization of a snapshot, standing for the JSON body
the handler sends. -/
def serializeSnapshot (s : Snapshot) : String :=
  toString s.total ++ "|" ++ serializePairs s.searchTypeBreakdown ++ "|" ++
  serializeDays s.timelineData ++ "|" ++
  serializePairs s.platformBreakdown ++ "|" ++
  (s.recentQueries.foldl (fun a q => a ++ serializeRecent q ++ ";") "") ++ "|" ++
  serializeOptNat s.dateRange.1 ++ "," ++ serializeOptNat s.dateRange.2

/-- One GET /api/stats evaluation against the store state: it returns
the snapshot and leaves the store unchanged (the handler only reads). -/
def statsRead (records : List SearchRecord) :
    Snapshot × List SearchRecord :=
  (computeSnapshot records, records)

/-! ## Helper lemmas -/

theorem mem_dedupGo {α : Type} [DecidableEq α] (a : α) (seen l : List α) :
    a ∈ dedupGo seen l ↔ a ∈ l ∧ a ∉ seen := by
  induction l generalizing seen with
  | nil => simp [dedupGo]
  | cons x xs ih =>
    by_cases hx : x ∈ seen
    · rw [dedupGo, if_pos hx, ih]
      constructor
      · rintro ⟨h1, h2⟩; exact ⟨List.mem_cons_of_mem _ h1, h2⟩
      · rintro ⟨h1, h2⟩
        rcases List.mem_cons.mp h1 with rfl | h1
        · exact absurd hx h2
        · exact ⟨h1, h2⟩
    · rw [dedupGo, if_neg hx]
      simp only [List.mem_cons, ih]
      constructor
      · rintro (rfl | ⟨h1, h2⟩)
        · exact ⟨Or.inl rfl, hx⟩
        · exact ⟨Or.inr h1, fun hs => h2 (Or.inr hs)⟩
      · rintro ⟨rfl | h1, h2⟩
        · exact Or.inl rfl
        · by_cases hax : a = x
          · exact Or.inl hax
          · exact Or.inr ⟨h1, by simp [List.mem_cons, hax, h2]⟩

theorem mem_dedupFirst {α : Type} [DecidableEq α] (a : α) (l : List α) :
    a ∈ dedupFirst l ↔ a ∈ l := by
  rw [dedupFirst, mem_dedupGo]; simp

theorem dedupGo_all_seen {α : Type} [DecidableEq α] (seen l : List α)
    (h : ∀ y ∈ l, y ∈ seen) : dedupGo seen l = [] := by
  induction l with
  | nil => rfl
  | cons x xs ih =>
    rw [dedupGo, if_pos (h x (List.mem_cons_self x xs))]
    exact ih fun y hy => h y (List.mem_cons_of_mem _ hy)

theorem dedupFirst_all_eq {α : Type} [DecidableEq α] (x : α) (l : List α)
    (hne : l ≠ []) (h : ∀ y ∈ l, y = x) : dedupFirst l = [x] := by
  cases l with
  | nil => exact absurd rfl hne
  | cons z zs =>
    have hz : z = x := h z (List.mem_cons_self z zs)
    subst hz
    rw [dedupFirst, dedupGo, if_neg (List.not_mem_nil z)]
    rw [dedupGo_all_seen]
    intro y hy
    rw [h y (List.mem_cons_of_mem _ hy)]
    exact List.mem_cons_self z []

theorem mem_insertAsc (x a : Nat) (l : List Nat) :
    a ∈ insertAsc x l ↔ a = x ∨ a ∈ l := by
  induction l with
  | nil => simp [insertAsc]
  | cons y ys ih =>
    rw [insertAsc]
    by_cases h : x ≤ y
    · simp [h]
    · simp only [if_neg h, List.mem_cons, ih]
      tauto

theorem mem_sortAsc (a : Nat) (l : List Nat) :
    a ∈ sortAsc l ↔ a ∈ l := by
  induction l with
  | nil => simp [sortAsc]
  | cons x xs ih =>
    rw [sortAsc, mem_insertAsc, ih]
    simp

theorem mem_insertDesc (x a : SearchRecord) (l : List SearchRecord) :
    a ∈ insertDesc x l ↔ a = x ∨ a ∈ l := by
  induction l with
  | nil => simp [insertDesc]
  | cons y ys ih =>
    rw [insertDesc]
    by_cases h : y.created_at ≤ x.created_at
    · simp [h]
    · simp only [if_neg h, List.mem_cons, ih]
      tauto

theorem mem_sortDesc (a : SearchRecord) (l : List SearchRecord) :
    a ∈ sortDesc l ↔ a ∈ l := by
  induction l with
  | nil => simp [sortDesc]
  | cons x xs ih =>
    rw [sortDesc, mem_insertDesc, ih]
    simp

theorem length_insertDesc (x : SearchRecord) (l : List SearchRecord) :
    (insertDesc x l).length = l.length + 1 := by
  induction l with
  | nil => rfl
  | cons y ys ih =>
    rw [insertDesc]
    by_cases h : y.created_at ≤ x.created_at
    · simp [h]
    · simp [h, ih]

theorem length_sortDesc (l : List SearchRecord) :
    (sortDesc l).length = l.length := by
  induction l with
  | nil => rfl
  | cons x xs ih =>
    rw [sortDesc, length_insertDesc, ih, List.length_cons]

theorem pairwise_insertDesc (x : SearchRecord) (l : List SearchRecord)
    (h : List.Pairwise (fun a b => b.created_at ≤ a.created_at) l) :
    List.Pairwise (fun a b => b.created_at ≤ a.created_at) (insertDesc x l) := by
  induction l with
  | nil => simp [insertDesc]
  | cons y ys ih =>
    rw [List.pairwise_cons] at h
    obtain ⟨hy, hys⟩ := h
    rw [insertDesc]
    by_cases hxy : y.created_at ≤ x.created_at
    · rw [if_pos hxy, List.pairwise_cons]
      refine ⟨fun b hb => ?_, List.pairwise_cons.mpr ⟨hy, hys⟩⟩
      rcases List.mem_cons.mp hb with rfl | hb
      · exact hxy
      · exact Nat.le_trans (hy b hb) hxy
    · rw [if_neg hxy, List.pairwise_cons]
      refine ⟨fun b hb => ?_, ih hys⟩
      rcases (mem_insertDesc x b ys).mp hb with rfl | hb
      · exact Nat.le_of_lt (Nat.lt_of_not_le hxy)
      · exact hy b hb

theorem pairwise_sortDesc (l : List SearchRecord) :
    List.Pairwise (fun a b => b.created_at ≤ a.created_at) (sortDesc l) := by
  induction l with
  | nil => simp [sortDesc]
  | cons x xs ih => exact pairwise_insertDesc x _ ih

theorem keys_jsSet (m : List (String × Nat)) (k : String) (c : Nat)
    (a : String) :
    a ∈ (jsSet m k c).map Prod.fst ↔ a ∈ m.map Prod.fst ∨ a = k := by
  rw [jsSet]
  by_cases hany : m.any (fun p => p.1 == k)
  · rw [if_pos hany]
    have hkeys : (m.map fun p => if p.1 == k then (k, c) else p).map Prod.fst
        = m.map Prod.fst := by
      rw [List.map_map]
      apply List.map_congr_left
      intro p _
      by_cases hp : p.1 == k
      · simp only [Function.comp_apply, if_pos hp]
        exact (eq_of_beq hp).symm
      · simp only [Function.comp_apply, if_neg hp]
    rw [hkeys]
    have hk : k ∈ m.map Prod.fst := by
      obtain ⟨p, hp, hpk⟩ := List.any_eq_true.mp hany
      exact (eq_of_beq hpk) ▸ List.mem_map_of_mem Prod.fst hp
    constructor
    · exact Or.inl
    · rintro (h | rfl)
      · exact h
      · exact hk
  · rw [if_neg hany]
    simp

theorem keys_toBreakdown_aux (rows : List (Option String × Nat))
    (acc : List (String × Nat)) (a : String) :
    a ∈ (rows.foldl (fun m row => jsSet m (labelOf row.1) row.2) acc).map
        Prod.fst ↔
    a ∈ acc.map Prod.fst ∨ ∃ p, p ∈ rows ∧ labelOf p.1 = a := by
  induction rows generalizing acc with
  | nil => simp
  | cons r rows ih =>
    rw [List.foldl_cons, ih, keys_jsSet]
    constructor
    · rintro ((h | rfl) | ⟨p, hp, hl⟩)
      · exact Or.inl h
      · exact Or.inr ⟨r, List.mem_cons_self r rows, rfl⟩
      · exact Or.inr ⟨p, List.mem_cons_of_mem _ hp, hl⟩
    · rintro (h | ⟨p, hp, hl⟩)
      · exact Or.inl (Or.inl h)
      · rcases List.mem_cons.mp hp with rfl | hp
        · exact Or.inl (Or.inr hl.symm)
        · exact Or.inr ⟨p, hp, hl⟩

theorem keys_toBreakdown (rows : List (Option String × Nat)) (a : String) :
    a ∈ (toBreakdown rows).map Prod.fst ↔
    ∃ p, p ∈ rows ∧ labelOf p.1 = a := by
  rw [toBreakdown, keys_toBreakdown_aux]
  simp

theorem label_mem_breakdown (f : SearchRecord → Option String)
    (rows : List SearchRecord) (a : String) :
    a ∈ (toBreakdown (groupRows f rows)).map Prod.fst ↔
    ∃ v, v ∈ rows.map f ∧ labelOf v = a := by
  rw [keys_toBreakdown]
  constructor
  · rintro ⟨p, hp, hl⟩
    rw [groupRows] at hp
    obtain ⟨v, hv, rfl⟩ := List.mem_map.mp hp
    exact ⟨v, (mem_dedupFirst v _).mp hv, hl⟩
  · rintro ⟨v, hv, hl⟩
    refine ⟨(v, (rows.filter (fun r => f r == v)).length), ?_, hl⟩
    rw [groupRows]
    exact List.mem_map_of_mem _ ((mem_dedupFirst v _).mpr hv)

theorem labelOf_ne_empty (v : Option String) : labelOf v ≠ "" := by
  cases v with
  | none => simp [labelOf]
  | some s =>
    rw [labelOf]
    by_cases h : s == ""
    · simp [h]
    · simp only [if_neg h]
      exact fun hs => h (beq_iff_eq.mpr hs)

theorem truthy_jsOr (a b : JsVal) :
    truthy (jsOr a b) = (truthy a || truthy b) := by
  rw [jsOr]
  cases ha : truthy a <;> simp [ha]

theorem truthy_jsAnd (a b : JsVal) :
    truthy (jsAnd a b) = (truthy a && truthy b) := by
  rw [jsAnd]
  cases ha : truthy a <;> simp [ha]

/-! ## Concrete instances used by witnesses -/

/-- A concrete hashing primitive satisfying the argon2 contract on the
inputs the witnesses use: the digest of `p` is `"digest:" ++ p` and
verification succeeds exactly on a matching password. -/
def argonDemo : Argon2 where
  hash := fun p => "digest:" ++ p
  verify := fun d p => .ok (d == "digest:" ++ p)

/-- A store whose records all have NULL `platform_name` and NULL
`search_type`. -/
def demoNullStore : List SearchRecord :=
  [⟨1, none, none, none, 100⟩, ⟨2, none, none, none, 200⟩]

/-- The three-record scenario of the specification: one web job query
on day one, one platform-less job query and one untyped mobile query
on day two. -/
def demoStore : List SearchRecord :=
  [⟨1, some "software engineer", some "job", some "web", 1704067200⟩,
   ⟨2, some "data scientist", some "job", none, 1704153600⟩,
   ⟨3, some "ux designer", none, some "mobile", 1704153700⟩]

/-- A store containing a record whose `platform_name` and `search_type`
are the empty string (present, non-null). -/
def demoEmptyStrStore : List SearchRecord :=
  [⟨1, none, some "", some "", 100⟩, ⟨2, none, some "job", some "web", 200⟩]

/-! ## Claims -/

/-- C1: for the configured pair, `authenticate` returns the principal
`{email, role: "admin"}`; a wrong password, a wrong email, or an empty
configured-identity store all yield "no match" (`none`); and a
verification error is absorbed into `none` rather than propagating. -/
theorem C1_authenticate_only_configured_pair
    (ar : Argon2) (email password wrongEmail wrongPassword : String)
    (users : List AdminUser)
    (hinit : initializeAdminUser ar (some email) (some password) [] =
      .ok users)
    (hok : ar.verify (ar.hash password) password = .ok true)
    (hbad : ar.verify (ar.hash password) wrongPassword = .ok false)
    (hwe : wrongEmail ≠ email) :
    authenticate ar users email password =
      some { email := email, role := "admin" } ∧
    authenticate ar users email wrongPassword = none ∧
    authenticate ar users wrongEmail password = none ∧
    authenticate ar [] email password = none ∧
    (∀ (ar2 : Argon2) (us : List AdminUser) (em pw msg : String),
      (∀ u ∈ us, ar2.verify u.password pw = Except.error msg) →
      authenticate ar2 us em pw = none) := by
  rw [initializeAdminUser] at hinit
  by_cases hc : (isFalsyStr (some email) || isFalsyStr (some password)) = true
  · rw [if_pos hc] at hinit
    exact absurd hinit (by simp)
  · rw [if_neg hc] at hinit
    injection hinit with hinit
    have husers : users = [⟨email, ar.hash password, "admin"⟩] := by
      rw [← hinit]
      rfl
    subst husers
    have hwe' : (email == wrongEmail) = false :=
      beq_eq_false_iff_ne.mpr (Ne.symm hwe)
    refine ⟨?_, ?_, ?_, rfl, ?_⟩
    · simp [authenticate, List.find?, hok]
    · simp [authenticate, List.find?, hbad]
    · simp [authenticate, List.find?, hwe']
    · intro ar2 us em pw msg hall
      rw [authenticate]
      cases hfind : us.find? (fun u => u.email == em) with
      | none => rfl
      | some u =>
        simp [hall u (List.mem_of_find?_eq_some hfind)]

/-- Witness for C1 at a concrete hashing primitive, identity and
credentials. -/
theorem C1_witness :
    authenticate argonDemo [⟨"admin@example.com", "digest:pw", "admin"⟩]
        "admin@example.com" "pw" =
      some { email := "admin@example.com", role := "admin" } ∧
    authenticate argonDemo [⟨"admin@example.com", "digest:pw", "admin"⟩]
        "admin@example.com" "wrong" = none ∧
    authenticate argonDemo [⟨"admin@example.com", "digest:pw", "admin"⟩]
        "other@example.com" "pw" = none :=
  let h := C1_authenticate_only_configured_pair argonDemo
    "admin@example.com" "pw" "other@example.com" "wrong"
    [⟨"admin@example.com", "digest:pw", "admin"⟩]
    (by rfl) (by rfl) (by rfl) (by decide)
  ⟨h.1, h.2.1, h.2.2.1⟩

/-- C6: the session check is false for an absent session, true exactly
when a recognized marker (`adminUser`, `adminjs`, or `passport.user`)
is present, and — being a total function on every `JsVal`, including
malformed or partial session objects — it cannot throw. -/
theorem C6_isAuthenticated_markers (s : JsVal) :
    checkAuth JsVal.undefined = false ∧
    checkAuth JsVal.null = false ∧
    (checkAuth s = true ↔ (truthy s = true ∧ recognizedMarker s)) := by
  refine ⟨rfl, rfl, ?_⟩
  rw [checkAuth]
  by_cases hs : truthy s = false
  · rw [if_pos hs]
    simp [hs]
  · rw [if_neg hs]
    have hst : truthy s = true := by
      cases h : truthy s
      · exact absurd h hs
      · rfl
    rw [truthy_jsOr, truthy_jsOr, truthy_jsAnd]
    simp [recognizedMarker, hst, and_assoc]

/-- Witness for C6 at concrete sessions: one carrying the `adminjs`
marker, and a malformed primitive session. -/
theorem C6_witness :
    checkAuth (JsVal.obj [("adminjs", JsVal.obj [])]) = true ∧
    checkAuth (JsVal.num 7) = false :=
  have h7 := (C6_isAuthenticated_markers (JsVal.num 7)).2.2
  ⟨(C6_isAuthenticated_markers
      (JsVal.obj [("adminjs", JsVal.obj [])])).2.2.mpr
    ⟨by decide, by decide⟩,
   by
    cases hv : checkAuth (JsVal.num 7)
    · rfl
    · exact absurd ((h7.mp hv).2) (by decide)⟩

/-- C7: the API guard and the page guard admit exactly the same
requests — both gate on `checkAuth` — and differ only in failure
shape: a structured 401 for the API guard, a redirect to the admin
login view for the page guard. -/
theorem C7_guards_agree (s : JsVal) :
    (requireAuth s = GuardResult.callNext ↔
      requireAuthWeb s = GuardResult.callNext) ∧
    (requireAuth s = GuardResult.callNext ↔ checkAuth s = true) ∧
    (checkAuth s = false →
      requireAuth s = GuardResult.status401Json "Unauthorized" ∧
      requireAuthWeb s = GuardResult.redirect "/admin/login") := by
  cases h : checkAuth s <;> simp [requireAuth, requireAuthWeb, h]

/-- Witness for C7 at the absent session. -/
theorem C7_witness :
    requireAuth JsVal.null = GuardResult.status401Json "Unauthorized" ∧
    requireAuthWeb JsVal.null = GuardResult.redirect "/admin/login" :=
  (C7_guards_agree JsVal.null).2.2 rfl

/-- C8 counterexample: `initializeAdminUser` appends instead of
overwriting, and `authenticate` matches the FIRST identity for an
email, so after two initializations with the same email the claim's
`authenticate(e1, p2)` returns `none`, not a principal. -/
theorem C8_counterexample :
    initializeAdminUser argonDemo (some "admin@x.com") (some "pw1") [] =
      Except.ok [⟨"admin@x.com", "digest:pw1", "admin"⟩] ∧
    initializeAdminUser argonDemo (some "admin@x.com") (some "pw2")
        [⟨"admin@x.com", "digest:pw1", "admin"⟩] =
      Except.ok [⟨"admin@x.com", "digest:pw1", "admin"⟩,
                 ⟨"admin@x.com", "digest:pw2", "admin"⟩] ∧
    authenticate argonDemo
        [⟨"admin@x.com", "digest:pw1", "admin"⟩,
         ⟨"admin@x.com", "digest:pw2", "admin"⟩]
        "admin@x.com" "pw2" = none ∧
    authenticate argonDemo
        [⟨"admin@x.com", "digest:pw1", "admin"⟩,
         ⟨"admin@x.com", "digest:pw2", "admin"⟩]
        "admin@x.com" "pw1" =
      some { email := "admin@x.com", role := "admin" } :=
  ⟨rfl, rfl, rfl, rfl⟩

/-- C8 (amended): re-initialization appends a second identity rather
than overwriting; `authenticate` checks the first stored identity whose
email matches, so with equal emails the FIRST password still
authenticates and the second does not. -/
theorem C8_first_identity_wins (ar : Argon2) (e p1 p2 : String)
    (us1 us2 : List AdminUser)
    (h1 : initializeAdminUser ar (some e) (some p1) [] = .ok us1)
    (h2 : initializeAdminUser ar (some e) (some p2) us1 = .ok us2)
    (hok : ar.verify (ar.hash p1) p1 = .ok true)
    (hbad : ar.verify (ar.hash p1) p2 = .ok false) :
    authenticate ar us2 e p1 = some { email := e, role := "admin" } ∧
    authenticate ar us2 e p2 = none := by
  rw [initializeAdminUser] at h1 h2
  by_cases hc1 : (isFalsyStr (some e) || isFalsyStr (some p1)) = true
  · rw [if_pos hc1] at h1
    exact absurd h1 (by simp)
  · rw [if_neg hc1] at h1
    by_cases hc2 : (isFalsyStr (some e) || isFalsyStr (some p2)) = true
    · rw [if_pos hc2] at h2
      exact absurd h2 (by simp)
    · rw [if_neg hc2] at h2
      injection h1 with h1
      subst h1
      injection h2 with h2
      subst h2
      constructor
      · simp [authenticate, List.find?, hok]
      · simp [authenticate, List.find?, hbad]

/-- Witness for the amended C8 at concrete credentials. -/
theorem C8_witness :
    authenticate argonDemo
        [⟨"a@b.c", "digest:p1", "admin"⟩, ⟨"a@b.c", "digest:p2", "admin"⟩]
        "a@b.c" "p1" = some { email := "a@b.c", role := "admin" } ∧
    authenticate argonDemo
        [⟨"a@b.c", "digest:p1", "admin"⟩, ⟨"a@b.c", "digest:p2", "admin"⟩]
        "a@b.c" "p2" = none :=
  C8_first_identity_wins argonDemo "a@b.c" "p1" "p2"
    [⟨"a@b.c", "digest:p1", "admin"⟩]
    [⟨"a@b.c", "digest:p1", "admin"⟩, ⟨"a@b.c", "digest:p2", "admin"⟩]
    (by rfl) (by rfl) (by rfl) (by rfl)

/-- C2: null handling is asymmetric. Records with NULL `platform_name`
contribute to no key of `platformBreakdown` (the breakdown of an
all-null store is empty, and in general the breakdown only depends on
the non-null records), while NULL `search_type` is counted under
`"Unknown"`: an all-null store of N records yields exactly
`{"Unknown": N}`. -/
theorem C2_null_handling_asymmetry (rs : List SearchRecord)
    (hp : ∀ r ∈ rs, r.platform_name = none)
    (hs : ∀ r ∈ rs, r.search_type = none)
    (hne : rs ≠ []) :
    platformBreakdown rs = [] ∧
    searchTypeBreakdown rs = [("Unknown", rs.length)] ∧
    (∀ rs2 : List SearchRecord,
      platformBreakdown rs2 =
        platformBreakdown (rs2.filter (fun r => r.platform_name.isSome))) := by
  refine ⟨?_, ?_, ?_⟩
  · rw [platformBreakdown]
    have hf : rs.filter (fun r => r.platform_name.isSome) = [] := by
      rw [List.filter_eq_nil_iff]
      intro r hr
      simp [hp r hr]
    rw [hf]
    rfl
  · rw [searchTypeBreakdown, groupRows]
    have hmap : ∀ y ∈ rs.map (fun r => r.search_type), y = none := by
      intro y hy
      obtain ⟨r, hr, rfl⟩ := List.mem_map.mp hy
      exact hs r hr
    have hmne : rs.map (fun r => r.search_type) ≠ [] := by
      rw [Ne, List.map_eq_nil_iff]
      exact hne
    rw [dedupFirst_all_eq none _ hmne hmap]
    have hfilt : rs.filter (fun r => r.search_type == none) = rs := by
      rw [List.filter_eq_self]
      intro r hr
      simp [hs r hr]
    rw [List.map_singleton, hfilt]
    rfl
  · intro rs2
    rw [platformBreakdown, platformBreakdown, List.filter_filter]
    simp

/-- Witness for C2 on a two-record all-null store. -/
theorem C2_witness :
    platformBreakdown demoNullStore = [] ∧
    searchTypeBreakdown demoNullStore = [("Unknown", demoNullStore.length)] :=
  let h := C2_null_handling_asymmetry demoNullStore
    (by decide) (by decide) (by decide)
  ⟨h.1, h.2.1⟩

/-- C3: evaluating the code at the failing input. For a store holding
one record whose `platform_name` is `"web"`, the recent-queries
projection drops the stored platform: the model-mediated fetch selects
only the attributes models/QueryResult.js declares, which do not
include `platform_name`, so the element carries `none` where the claim
(and the handler's own projection, the dashboard's Platform column and
the AdminJS resource configuration) expect the stored `"web"`. -/
theorem C3_platform_name_dropped :
    recentQueries [⟨1, some "k", some "job", some "web", 100⟩] =
      [⟨1, some "k", some "job", none, 100⟩] ∧
    (⟨1, some "k", some "job", none, 100⟩ : RecentQuery).platform_name ≠
      (⟨1, some "k", some "job", some "web", 100⟩ :
        SearchRecord).platform_name :=
  ⟨rfl, by decide⟩

/-- C4: the snapshot of the empty store has zero total, null date
range, no recent queries, and empty breakdown and timeline
mappings. -/
theorem C4_empty_store_snapshot :
    computeSnapshot [] =
      { total := 0, searchTypeBreakdown := [], timelineData := [],
        platformBreakdown := [], recentQueries := [],
        dateRange := (none, none) } :=
  rfl

/-- C5: `timelineData` holds exactly the calendar days with at least
one record, each mapped to that day's record count, over the whole
span of the data (membership depends only on the day's count being
positive — no 30-day or other window restricts it). -/
theorem C5_timeline_full_span (rs : List SearchRecord) (d c : Nat) :
    (d, c) ∈ timelineData rs ↔ (countOnDay rs d = c ∧ 0 < c) := by
  rw [timelineData]
  constructor
  · intro h
    obtain ⟨d', hd', he⟩ := List.mem_map.mp h
    obtain ⟨hd, hc⟩ := Prod.mk.injEq .. ▸ he
    subst hd
    subst hc
    refine ⟨rfl, ?_⟩
    have hmem : d' ∈ rs.map (fun r => dayOf r.created_at) :=
      (mem_dedupFirst _ _).mp ((mem_sortAsc _ _).mp hd')
    obtain ⟨r, hr, hrd⟩ := List.mem_map.mp hmem
    have : r ∈ rs.filter (fun r => dayOf r.created_at == d') :=
      List.mem_filter.mpr ⟨hr, by simp [hrd]⟩
    exact List.length_pos_of_mem this
  · rintro ⟨rfl, hc⟩
    have hex : ∃ r, r ∈ rs.filter (fun r => dayOf r.created_at == d) :=
      List.exists_mem_of_length_pos hc
    obtain ⟨r, hrf⟩ := hex
    obtain ⟨hr, hrd⟩ := List.mem_filter.mp hrf
    have hd : d ∈ rs.map (fun r => dayOf r.created_at) := by
      rw [List.mem_map]
      exact ⟨r, hr, beq_iff_eq.mp hrd⟩
    exact List.mem_map_of_mem _
      ((mem_sortAsc _ _).mpr ((mem_dedupFirst _ _).mpr hd))

/-- Witness for C5: day 19724 (2024-01-02) holds two of the demo
records. -/
theorem C5_witness : (19724, 2) ∈ timelineData demoStore :=
  (C5_timeline_full_span demoStore 19724 2).mpr (by decide)

/-- C9: the snapshot computation is a pure read of the store state:
evaluating it twice in a row, threading the store state through,
yields the same snapshot and the byte-identical serialized body. -/
theorem C9_snapshot_deterministic (s : List SearchRecord) :
    (statsRead s).1 = (statsRead (statsRead s).2).1 ∧
    serializeSnapshot (statsRead s).1 =
      serializeSnapshot (statsRead (statsRead s).2).1 :=
  ⟨rfl, rfl⟩

/-- C10: an empty-string `platform_name` passes the not-null filter and
is counted under `"Unknown"` (never under the empty-string label), and
an empty-string `search_type` is likewise bucketed under `"Unknown"`,
sharing that key with truly absent values. -/
theorem C10_empty_string_is_unknown (rs : List SearchRecord)
    (r : SearchRecord) (hr : r ∈ rs) (hp : r.platform_name = some "") :
    r ∈ rs.filter (fun x => x.platform_name.isSome) ∧
    "Unknown" ∈ (platformBreakdown rs).map Prod.fst ∧
    "" ∉ (platformBreakdown rs).map Prod.fst ∧
    (∀ r2 ∈ rs, r2.search_type = some "" →
      "Unknown" ∈ (searchTypeBreakdown rs).map Prod.fst) ∧
    "" ∉ (searchTypeBreakdown rs).map Prod.fst := by
  have hrf : r ∈ rs.filter (fun x => x.platform_name.isSome) :=
    List.mem_filter.mpr ⟨hr, by simp [hp]⟩
  refine ⟨hrf, ?_, ?_, ?_, ?_⟩
  · rw [platformBreakdown, label_mem_breakdown]
    exact ⟨some "", hp ▸ List.mem_map_of_mem _ hrf, by simp [labelOf]⟩
  · rw [platformBreakdown, label_mem_breakdown]
    rintro ⟨v, hv, hl⟩
    exact labelOf_ne_empty v hl
  · intro r2 hr2 hs2
    rw [searchTypeBreakdown, label_mem_breakdown]
    exact ⟨some "", hs2 ▸ List.mem_map_of_mem _ hr2, by simp [labelOf]⟩
  · rw [searchTypeBreakdown, label_mem_breakdown]
    rintro ⟨v, hv, hl⟩
    exact labelOf_ne_empty v hl

/-- Witness for C10 on a store with an empty-string record. -/
theorem C10_witness :
    (⟨1, none, some "", some "", 100⟩ : SearchRecord) ∈
        demoEmptyStrStore.filter (fun x => x.platform_name.isSome) ∧
    "Unknown" ∈ (platformBreakdown demoEmptyStrStore).map Prod.fst ∧
    "" ∉ (platformBreakdown demoEmptyStrStore).map Prod.fst ∧
    (∀ r2 ∈ demoEmptyStrStore, r2.search_type = some "" →
      "Unknown" ∈ (searchTypeBreakdown demoEmptyStrStore).map Prod.fst) ∧
    "" ∉ (searchTypeBreakdown demoEmptyStrStore).map Prod.fst :=
  C10_empty_string_is_unknown demoEmptyStrStore
    ⟨1, none, some "", some "", 100⟩ (by decide) (by decide)
